import Mathlib

/-!
# Verification of the tee-time booking service

A shallow embedding, in Lean 4, of the core logic of the booking
service (`src/bookingService.js`, first revision, the one the line
references of the specification point at), of the weekend automation
module (`src/weekendAutomation.js`) and of the scheduler cron jobs of
the server (`src/unnamed/part_001` and `src/unnamed/part_002`).

JavaScript strings are embedded as `String`, JS numbers occurring in
the embedded fragments as `Nat` or `Int` (no fractional or NaN values
reach the embedded arithmetic; where `parseInt` can produce NaN the
embedding uses `Option Int`), timestamps as integers (seconds), SQL
dates as integer day indices with the JS `getDay` convention
`day % 7` (`0` = Sunday, `6` = Saturday).  Network interaction is
embedded by passing the peer's responses as explicit arguments.
-/

namespace TeeParty

/-! ## String helpers (JS `includes`, `trim`, `parseInt`) -/

/-- Does `needle` occur at the very front of `hay`? (helper for the
embedding of JS `String.prototype.includes`). -/
def matchesAt : List Char → List Char → Bool
  | [], _ => true
  | _ :: _, [] => false
  | a :: as, b :: bs => a == b && matchesAt as bs

/-- Does `needle` occur anywhere inside `hay`? -/
def occursIn (needle : List Char) : List Char → Bool
  | [] => matchesAt needle []
  | c :: t => matchesAt needle (c :: t) || occursIn needle t

/-- Embedding of JS `hay.includes(needle)`. -/
def strIncludes (hay needle : String) : Bool :=
  occursIn needle.data hay.data

/-- Numeric value of a decimal digit character. -/
def digitVal (c : Char) : Nat := c.toNat - 48

/-- Value of the maximal leading run of decimal digits; `none` when the
run is empty (the NaN case of JS `parseInt`). -/
def leadingDigitsVal (cs : List Char) : Option Nat :=
  let ds := cs.takeWhile Char.isDigit
  if ds.isEmpty then none
  else some (ds.foldl (fun a c => a * 10 + digitVal c) 0)

/-- Whitespace characters recognised by the embedding of JS `trim` /
`\s`. -/
def isWsChar (c : Char) : Bool :=
  c == ' ' || c == '\t' || c == '\n' || c == '\r'

/-- Embedding of JS `String.prototype.trim`. -/
def jsTrim (s : String) : String :=
  String.mk (((s.data.dropWhile isWsChar).reverse.dropWhile isWsChar).reverse)

/-- Embedding of JS `parseInt(s)` (radix 10): skip leading whitespace,
optional sign, then the leading digit run; `none` models NaN. -/
def jsParseInt (s : String) : Option Int :=
  match s.data.dropWhile isWsChar with
  | '-' :: rest => (leadingDigitsVal rest).map (fun n => -(n : Int))
  | '+' :: rest => (leadingDigitsVal rest).map (fun n => (n : Int))
  | cs => (leadingDigitsVal cs).map (fun n => (n : Int))

/-! ## `timeToMinutes` (src/bookingService.js lines 436-484)

The three branches of the source function: the exact-shape tests for
`HH:MM:SS` and `HH:MM` (the source's anchored regexes), then a scan
for the first occurrence of `(\d{1,2}):(\d{2})\s*(AM|PM)` anywhere in
the string (the source's unanchored, case-insensitive regex, which
prefers a two-digit hour at each position, as the greedy `\d{1,2}`
does), else `0`. -/

/-- The anchored `^\d{1,2}:\d{2}:\d{2}$` branch. -/
def matchHMS : List Char → Option Nat
  | [a, ':', b, c, ':', d, e] =>
    if a.isDigit && b.isDigit && c.isDigit && d.isDigit && e.isDigit then
      some (digitVal a * 60 + (digitVal b * 10 + digitVal c))
    else none
  | [a, a2, ':', b, c, ':', d, e] =>
    if a.isDigit && a2.isDigit && b.isDigit && c.isDigit && d.isDigit && e.isDigit then
      some ((digitVal a * 10 + digitVal a2) * 60 + (digitVal b * 10 + digitVal c))
    else none
  | _ => none

/-- The anchored `^\d{1,2}:\d{2}$` branch. -/
def matchHM : List Char → Option Nat
  | [a, ':', b, c] =>
    if a.isDigit && b.isDigit && c.isDigit then
      some (digitVal a * 60 + (digitVal b * 10 + digitVal c))
    else none
  | [a, a2, ':', b, c] =>
    if a.isDigit && a2.isDigit && b.isDigit && c.isDigit then
      some ((digitVal a * 10 + digitVal a2) * 60 + (digitVal b * 10 + digitVal c))
    else none
  | _ => none

/-- 12-hour clock arithmetic of the source: `PM && hours !== 12` adds
12, `AM && hours === 12` resets to 0. -/
def hours12to24 (hours : Nat) (isPM : Bool) : Nat :=
  if isPM && hours != 12 then hours + 12
  else if !isPM && hours == 12 then 0
  else hours

/-- Try to match `(\d{1,2}):(\d{2})\s*(AM|PM)` (case-insensitive) at
the front of the list, two-digit hour preferred. -/
def matchAmPmAt (cs : List Char) : Option Nat :=
  let tail := fun (h m : Nat) (rest : List Char) =>
    match rest.dropWhile isWsChar with
    | p :: q :: _ =>
      if (p == 'A' || p == 'a') && (q == 'M' || q == 'm') then
        some (hours12to24 h false * 60 + m)
      else if (p == 'P' || p == 'p') && (q == 'M' || q == 'm') then
        some (hours12to24 h true * 60 + m)
      else none
    | _ => none
  match cs with
  | a :: a2 :: ':' :: b :: c :: rest =>
    if a.isDigit && a2.isDigit && b.isDigit && c.isDigit then
      tail (digitVal a * 10 + digitVal a2) (digitVal b * 10 + digitVal c) rest
    else
      match cs with
      | a :: ':' :: b :: c :: rest' =>
        if a.isDigit && b.isDigit && c.isDigit then
          tail (digitVal a) (digitVal b * 10 + digitVal c) rest'
        else none
      | _ => none
  | a :: ':' :: b :: c :: rest =>
    if a.isDigit && b.isDigit && c.isDigit then
      tail (digitVal a) (digitVal b * 10 + digitVal c) rest
    else none
  | _ => none

/-- Leftmost match of the unanchored 12-hour pattern. -/
def searchAmPm : List Char → Option Nat
  | [] => none
  | c :: rest =>
    match matchAmPmAt (c :: rest) with
    | some r => some r
    | none => searchAmPm rest

/-- Embedding of `timeToMinutes` (src/bookingService.js lines
436-484).  The source trims the input, tries `HH:MM:SS`, then `HH:MM`
(conditioned on the string not containing `AM`/`PM`, which its shape
already rules out), then scans for a 12-hour time, and returns `0`
when nothing matches. -/
def timeToMinutes (timeStr : String) : Nat :=
  let t := jsTrim timeStr
  match matchHMS t.data with
  | some r => r
  | none =>
    match
      (if !(strIncludes t "AM") && !(strIncludes t "PM") then matchHM t.data else none)
    with
    | some r => r
    | none =>
      match searchAmPm t.data with
      | some r => r
      | none => 0

/-! ## Slot records and the slot selector

`findAndBookBestSlot` (src/bookingService.js lines 816-957) fetches
the tee sheet, converts `preferredTime` and `maxTime` to minutes and
then chooses a slot; the choice logic is embedded below as
`selectBestSlot` (the normal branch, lines 869-944) and
`selectBestSlotFast` (the `fastMode` branch, lines 828-841).  The
network act of booking the chosen slot is `makeReservation`, embedded
separately. -/

/-- A parsed slot record, as pushed by `parseAvailableSlots`
(src/bookingService.js lines 377-385).  `availableSpots` and
`currentPlayers` hold `parseInt` results; `currentPlayers` can be NaN
in the source, embedded as `none`. -/
structure Slot where
  time : String
  tee : String
  availableSpots : Int
  currentPlayers : Option Int
  courseId : String
  date : String
  canReserve : Bool
deriving DecidableEq, Repr

/-- The per-slot test of one capacity tier: `canReserve`, exactly
`spots` available, and minute-of-day within `[preferredTimeMin,
maxTimeMin]` inclusive (the filter bodies at lines 874-880, 887-893,
900-906, 913-919, and the fast-branch test at lines 831-835). -/
def slotTierInRange (spots : Int) (preferredTimeMin maxTimeMin : Nat) (s : Slot) : Bool :=
  s.canReserve && s.availableSpots == spots &&
    (preferredTimeMin ≤ timeToMinutes s.time && timeToMinutes s.time ≤ maxTimeMin)

/-- The normal branch of the selector: filter tier 4, else tier 3,
else tier 2, else tier 1; the booked slot is `availableSlots[0]`, the
first element of the first non-empty filtered list (lines 869-944). -/
def selectBestSlot (slots : List Slot) (preferredTimeMin maxTimeMin : Nat) : Option Slot :=
  match slots.filter (slotTierInRange 4 preferredTimeMin maxTimeMin) with
  | s :: _ => some s
  | [] =>
    match slots.filter (slotTierInRange 3 preferredTimeMin maxTimeMin) with
    | s :: _ => some s
    | [] =>
      match slots.filter (slotTierInRange 2 preferredTimeMin maxTimeMin) with
      | s :: _ => some s
      | [] =>
        match slots.filter (slotTierInRange 1 preferredTimeMin maxTimeMin) with
        | s :: _ => some s
        | [] => none

/-- The `fastMode` branch of the selector: for priority 4, 3, 2, 1 in
order, scan the slot list and book the first slot of that priority in
range (lines 828-841). -/
def selectBestSlotFast (slots : List Slot) (preferredTimeMin maxTimeMin : Nat) : Option Slot :=
  match slots.find? (slotTierInRange 4 preferredTimeMin maxTimeMin) with
  | some s => some s
  | none =>
    match slots.find? (slotTierInRange 3 preferredTimeMin maxTimeMin) with
    | some s => some s
    | none =>
      match slots.find? (slotTierInRange 2 preferredTimeMin maxTimeMin) with
      | some s => some s
      | none =>
        match slots.find? (slotTierInRange 1 preferredTimeMin maxTimeMin) with
        | some s => some s
        | none => none

/-! ## The catalog parser `parseAvailableSlots`
(src/bookingService.js lines 346-433)

The source decodes five HTML entities, then runs two global regexes
for the six-argument `LaunchReserver(...)` call over the decoded text
(method 1), and, only when that found nothing, scans `onclick`
attributes for the same call (method 2, a cheerio DOM traversal,
embedded here as a textual scan over `onclick="..."`/`onclick='...'`
attribute occurrences in the raw payload).  Every extracted
six-tuple goes through the same guarded push: skip when
`parseInt(availableSpots) > 0` fails, skip when a slot with the same
`(time, date)` pair was already pushed. -/

/-- One extracted six-argument `LaunchReserver` descriptor, fields
still raw strings. -/
structure RawMatch where
  courseId : String
  date : String
  time : String
  tee : String
  currentPlayers : String
  availableSpots : String
deriving DecidableEq, Repr

/-- The entity decoding at lines 353-358 (`String.replace` replaces
every occurrence, as the source's global regexes do). -/
def decodeHtmlEntities (html : String) : String :=
  ((((html.replace "&#39;" "'").replace "&quot;" "\"").replace "&amp;" "&").replace
    "&lt;" "<").replace "&gt;" ">"

/-- Quote characters of the character class `['"]`. -/
def isQuoteChar (c : Char) : Bool := c == '\'' || c == '"'

/-- Match one regex parameter `['"]([^'"]+)['"]` (when `anyQuote`) or
`'([^']+)'` at the front of the list; returns the captured group and
the rest.  The content class excludes the quote characters, so the
greedy `+` simply runs to the next quote. -/
def matchQuotedParam (anyQuote : Bool) (cs : List Char) : Option (List Char × List Char) :=
  match cs with
  | q :: rest =>
    if (if anyQuote then isQuoteChar q else q == '\'') then
      let content := rest.takeWhile (fun c => if anyQuote then !isQuoteChar c else c != '\'')
      let rest' := rest.drop content.length
      match rest' with
      | q2 :: rest'' =>
        if content.length != 0 && (if anyQuote then isQuoteChar q2 else q2 == '\'') then
          some (content, rest'')
        else none
      | [] => none
    else none
  | [] => none

/-- Match `,\s*` then a quoted parameter. -/
def matchCommaParam (anyQuote : Bool) (cs : List Char) : Option (List Char × List Char) :=
  match cs with
  | ',' :: rest => matchQuotedParam anyQuote (rest.dropWhile isWsChar)
  | _ => none

/-- Try to match a whole `LaunchReserver(p1, ..., p6` call (as the two
source regexes do — they do not require the closing parenthesis) at
the front of the list; returns the six captures and the rest of the
input after the match. -/
def matchLaunchReserverAt (anyQuote : Bool) (cs : List Char) : Option (RawMatch × List Char) :=
  if matchesAt "LaunchReserver(".data cs then
    let cs1 := cs.drop "LaunchReserver(".data.length
    match matchQuotedParam anyQuote cs1 with
    | none => none
    | some (p1, r1) =>
      match matchCommaParam anyQuote r1 with
      | none => none
      | some (p2, r2) =>
        match matchCommaParam anyQuote r2 with
        | none => none
        | some (p3, r3) =>
          match matchCommaParam anyQuote r3 with
          | none => none
          | some (p4, r4) =>
            match matchCommaParam anyQuote r4 with
            | none => none
            | some (p5, r5) =>
              match matchCommaParam anyQuote r5 with
              | none => none
              | some (p6, r6) =>
                some (⟨⟨p1⟩, ⟨p2⟩, ⟨p3⟩, ⟨p4⟩, ⟨p5⟩, ⟨p6⟩⟩, r6)
  else none

/-- Global scan of one `LaunchReserver` regex (the `exec` loop at
lines 366-391): successive non-overlapping matches, the search
resuming after each match.  `fuel` bounds the recursion; it is
instantiated with the input length, which the scan never exceeds
because every match consumes at least one character. -/
def scanLaunchReserver (anyQuote : Bool) : Nat → List Char → List RawMatch
  | 0, _ => []
  | _ + 1, [] => []
  | fuel + 1, c :: rest =>
    match matchLaunchReserverAt anyQuote (c :: rest) with
    | some (m, rest') => m :: scanLaunchReserver anyQuote fuel rest'
    | none => scanLaunchReserver anyQuote fuel rest

/-- The guarded push of lines 373-389 and 412-425: require
`parseInt(availableSpots) > 0` and no already-pushed slot with the
same `(time, date)`; new slots are appended at the end, `tee` is
rendered as in the source. -/
def pushMatches : List RawMatch → List Slot → List Slot
  | [], acc => acc
  | m :: rest, acc =>
    let spotsOk := match jsParseInt m.availableSpots with
      | some v => 0 < v
      | none => false
    let dup := acc.any (fun s => s.time == m.time && s.date == m.date)
    let acc' :=
      if spotsOk && !dup then
        acc ++ [{ time := m.time
                  tee := if m.tee == "1" then "1st TEE" else "10th TEE"
                  availableSpots := (jsParseInt m.availableSpots).getD 0
                  currentPlayers := jsParseInt m.currentPlayers
                  courseId := m.courseId
                  date := m.date
                  canReserve := true }]
      else acc
    pushMatches rest acc'

/-- Extract the values of `onclick=...` attributes from the raw
payload (the embedding of the cheerio `$('[onclick]')` traversal of
method 2, lines 397-429). -/
def scanOnclickValues : Nat → List Char → List (List Char)
  | 0, _ => []
  | _ + 1, [] => []
  | fuel + 1, c :: rest =>
    if matchesAt "onclick=".data (c :: rest) then
      let cs1 := (c :: rest).drop "onclick=".data.length
      match cs1 with
      | q :: body =>
        if isQuoteChar q then
          let v := body.takeWhile (fun x => x != q)
          v :: scanOnclickValues fuel (body.drop v.length)
        else scanOnclickValues fuel rest
      | [] => []
    else scanOnclickValues fuel rest

/-- Global scan for quoted tokens `['"]([^'"]+)['"]` (the
`match(/['"]([^'"]+)['"]/g)` of line 403). -/
def scanQuotedTokens : Nat → List Char → List (List Char)
  | 0, _ => []
  | _ + 1, [] => []
  | fuel + 1, c :: rest =>
    match matchQuotedParam true (c :: rest) with
    | some (content, rest') => content :: scanQuotedTokens fuel rest'
    | none => scanQuotedTokens fuel rest

/-- Method 2 per-attribute extraction: the attribute must contain
`LaunchReserver`, the first `LaunchReserver\([^)]+\)` match is taken,
and its quoted tokens (`['"]([^'"]+)['"]`, globally) must number at
least six; the first six are the descriptor (lines 400-426). -/
def onclickToMatch (v : List Char) : Option RawMatch :=
  if occursIn "LaunchReserver".data v then
    match
      (let found := (List.range v.length).find? fun i =>
        matchesAt "LaunchReserver(".data (v.drop i)
       found.bind fun i =>
        let afterParen := (v.drop i).drop "LaunchReserver(".data.length
        let inner := afterParen.takeWhile (fun c => c != ')')
        if inner.length != 0 && afterParen.length != inner.length then
          some inner
        else none)
    with
    | none => none
    | some inner =>
      let params := (scanQuotedTokens inner.length inner)
      match params with
      | p1 :: p2 :: p3 :: p4 :: p5 :: p6 :: _ =>
        some ⟨⟨p1⟩, ⟨p2⟩, ⟨p3⟩, ⟨p4⟩, ⟨p5⟩, ⟨p6⟩⟩
      | _ => none
  else none

/-- Embedding of `parseAvailableSlots` (src/bookingService.js lines
346-433): method 1 runs both regex variants over the decoded payload
and pushes their matches in order; method 2 runs only when method 1
pushed nothing. -/
def parseAvailableSlots (html : String) : List Slot :=
  let decoded := decodeHtmlEntities html
  let m1 := scanLaunchReserver true decoded.data.length decoded.data ++
            scanLaunchReserver false decoded.data.length decoded.data
  let slots := pushMatches m1 []
  if slots.isEmpty then
    let vals := scanOnclickValues html.data.length html.data
    pushMatches (vals.filterMap onclickToMatch) []
  else slots

/-! ## Calendar dates

`getTeeSheet` and `makeReservation` build a long-form date string
(weekday name, month name, day, with or without year) from a
`M/D/YYYY` string via JS `new Date(...)` and its `getDay`/`getMonth`/
`getDate`/`getFullYear` accessors.  The embedding parses the three
slash-separated decimal fields and computes the weekday by the
standard civil-calendar day count (what the JS `Date` machinery does
for such strings in local time). -/

/-- The `dayNames` array (src/bookingService.js lines 247, 699). -/
def dayNames : List String :=
  ["Sunday", "Monday", "Tuesday", "Wednesday", "Thursday", "Friday", "Saturday"]

/-- The `monthNames` array (lines 248, 700). -/
def monthNames : List String :=
  ["January", "February", "March", "April", "May", "June", "July", "August",
   "September", "October", "November", "December"]

/-- Days since 0000-03-01 of the proleptic Gregorian calendar (valid
for year ≥ 1, which covers every date the service handles). -/
def daysFromCivil (y m d : Nat) : Nat :=
  let y' := if m ≤ 2 then y - 1 else y
  let era := y' / 400
  let yoe := y' % 400
  let mp := (m + 9) % 12
  let doy := (153 * mp + 2) / 5 + d - 1
  let doe := yoe * 365 + yoe / 4 - yoe / 100 + doy
  era * 146097 + doe

/-- Weekday of a civil date in the JS `getDay` convention
(0 = Sunday, ..., 6 = Saturday). -/
def dayOfWeekYMD (y m d : Nat) : Nat :=
  (daysFromCivil y m d + 3) % 7

/-- Split a character list at every `/` (the embedding of
`String.split` on the slash separator used by date strings). -/
def splitOnSlash : List Char → List (List Char)
  | [] => [[]]
  | '/' :: rest => [] :: splitOnSlash rest
  | c :: rest =>
    match splitOnSlash rest with
    | h :: t => (c :: h) :: t
    | [] => [[c]]

/-- All-decimal-digit check for one date field. -/
def allDigitsVal (cs : List Char) : Option Nat :=
  if !cs.isEmpty && cs.all Char.isDigit then
    some (cs.foldl (fun a c => a * 10 + digitVal c) 0)
  else none

/-- Parse a `M/D/YYYY` date string into (month, day, year), the
embedding of `new Date(dateString)` for the slash-separated strings
the service constructs; `none` models an invalid date. -/
def parseMDY (s : String) : Option (Nat × Nat × Nat) :=
  match splitOnSlash s.data with
  | [ms, ds, ys] =>
    match allDigitsVal ms, allDigitsVal ds, allDigitsVal ys with
    | some m, some d, some y => some (m, d, y)
    | _, _, _ => none
  | _ => none

/-- A target date, as handed to `getTeeSheet` (month 1-12, day of
month, 4-digit year). -/
structure CalDate where
  month : Nat
  day : Nat
  year : Nat
deriving DecidableEq, Repr

/-- The non-padded request date string, `getMonth()+1`/`getDate()`/
`getFullYear()` (line 177), e.g. `9/6/2025`. -/
def formattedDate (d : CalDate) : String :=
  toString d.month ++ "/" ++ toString d.day ++ "/" ++ toString d.year

/-- `String(n).padStart(2, '0')`. -/
def pad2 (n : Nat) : String :=
  if n < 10 then "0" ++ toString n else toString n

/-- The zero-padded request date string (line 180), e.g. `09/06/2025`. -/
def paddedDate (d : CalDate) : String :=
  pad2 d.month ++ "/" ++ pad2 d.day ++ "/" ++ toString d.year

/-- The request date string of one attempt:
`attempt <= 5 ? formattedDate : paddedDate` (line 185). -/
def attemptDateString (d : CalDate) (attempt : Nat) : String :=
  if attempt ≤ 5 then formattedDate d else paddedDate d

/-- The expected long-form date string of the date-validation check
(lines 246-255): weekday name, month name, day, year of
`new Date(dateToTry)`.  On an unparseable string the JS accessors
yield `NaN`/`undefined`, rendered as the source's template literal
would render them. -/
def expectedLongDate (dateToTry : String) : String :=
  match parseMDY dateToTry with
  | some (m, d, y) =>
    (dayNames.getD (dayOfWeekYMD y m d) "undefined") ++ ", " ++
      (monthNames.getD (m - 1) "undefined") ++ " " ++ toString d ++ ", " ++ toString y
  | none => "undefined, undefined NaN, NaN"

/-- The expected confirmation date string of `makeReservation` (lines
697-706): same construction but without the year. -/
def expectedConfirmDate (dateStr : String) : String :=
  match parseMDY dateStr with
  | some (m, d, y) =>
    (dayNames.getD (dayOfWeekYMD y m d) "undefined") ++ ", " ++
      (monthNames.getD (m - 1) "undefined") ++ " " ++ toString d
  | none => "undefined, undefined NaN"

/-! ## The catalog fetcher `getTeeSheet`
(src/bookingService.js lines 158-314)

Per attempt the source issues a priming request (response unused) and
the dated request; the peer is embedded as a function from the sent
date string to the response (`Except.error` modelling a transport
failure, which the source's `catch` turns into a retry, or, on the
last attempt, a thrown network error).  A date-validation mismatch
retries on every attempt but the last and throws on the last; a
login-marker response throws inside the `try` and is likewise
retried by the `catch`.  Thrown errors are embedded as `none`; a
successful fetch yields the attempt number it succeeded on together
with the parsed sheet. -/

/-- Result of `parseTeeSheet` (lines 317-343): either the
bookings-not-open page (detected by the `.ncDateNotOpen` element,
embedded as a textual marker check; its message/countdown texts are
not modelled) or the parsed slot list. -/
inductive TeeSheetResult
  | notOpen
  | sheet (slots : List Slot)
deriving DecidableEq, Repr

/-- Embedding of `parseTeeSheet` (lines 317-343). -/
def parseTeeSheet (html : String) : TeeSheetResult :=
  if strIncludes html "ncDateNotOpen" then .notOpen
  else .sheet (parseAvailableSlots html)

/-- The retry loop of `getTeeSheet`, `fuel` = remaining attempts,
`attempt` = current attempt number. -/
def getTeeSheetGo (d : CalDate) (server : String → Except String String) :
    Nat → Nat → Option (Nat × TeeSheetResult)
  | 0, _ => none
  | fuel + 1, attempt =>
    let dateToTry := attemptDateString d attempt
    match server dateToTry with
    | .error _ =>
      if fuel == 0 then none else getTeeSheetGo d server fuel (attempt + 1)
    | .ok body =>
      if !(strIncludes body (expectedLongDate dateToTry)) then
        if fuel == 0 then none else getTeeSheetGo d server fuel (attempt + 1)
      else if strIncludes body "txtUsername" || strIncludes body "Login" then
        if fuel == 0 then none else getTeeSheetGo d server fuel (attempt + 1)
      else
        some (attempt, parseTeeSheet body)

/-- Embedding of `getTeeSheet(date, maxRetries = 10)` (lines
158-314); `none` models a thrown error, `some (n, r)` a return on
attempt `n`. -/
def getTeeSheet (d : CalDate) (server : String → Except String String)
    (maxRetries : Nat := 10) : Option (Nat × TeeSheetResult) :=
  getTeeSheetGo d server maxRetries 1

/-! ## The reservation submitter `makeReservation`
(src/bookingService.js lines 487-813)

One attempt fetches the booking dialog, posts the form, and
classifies the response text by literal markers.  The response of
each attempt is embedded as a record: the raw text for the marker
scans, plus the two regex capture groups of the confirmation
date/time table-cell patterns (lines 715-718), whose HTML-structure
matching is embedded as response fields (`none` when the pattern
finds no match).  A transport failure anywhere in the attempt is
`SubmitAttempt.netError`. -/

/-- The response of one submission attempt. -/
structure SubmitResponse where
  text : String
  confirmDateRaw : Option String
  confirmTimeRaw : Option String
deriving DecidableEq, Repr

/-- One attempt's network outcome. -/
inductive SubmitAttempt
  | ok (r : SubmitResponse)
  | netError (msg : String)
deriving DecidableEq, Repr

/-- The embedding of `actualDate.replace(/,.*$/, '')` (line 727):
delete from the leftmost comma whose tail holds no newline (the `.`
of the pattern does not match newlines) to the end. -/
def stripCommaToEnd : List Char → List Char
  | [] => []
  | c :: cs =>
    if c == ',' && !(cs.contains '\n') then []
    else c :: stripCommaToEnd cs

/-- `dateMatches && timeMatches` of lines 727-728: the extracted
confirmation date must contain the expected date string or the
expected string must contain the extracted date up to its first
comma, and the extracted time must equal the requested slot time. -/
def confirmMatches (slot : Slot) (r : SubmitResponse) : Bool :=
  let expected := expectedConfirmDate slot.date
  let actualDate := (r.confirmDateRaw.map jsTrim).getD "Unknown"
  let actualTime := (r.confirmTimeRaw.map jsTrim).getD "Unknown"
  (strIncludes actualDate expected ||
    strIncludes expected (String.mk (stripCommaToEnd actualDate.data))) &&
  actualTime == slot.time

/-- The classified outcome of one submission response. -/
inductive ReservationOutcome
  | confirmed (actualDate actualTime : String)
  | slotUnavailable
  | weekdayRestriction
  | ruleConflict
  | errorInResponse
  | unclear
  | networkFailed (msg : String)
deriving DecidableEq, Repr

/-- Is the outcome the `success: true` result object? -/
def ReservationOutcome.isSuccess : ReservationOutcome → Bool
  | .confirmed _ _ => true
  | _ => false

/-- The marker-priority classification of one (non-network-failed)
submission response (lines 709-781).  `none` is the
mismatched-confirmation case: the source logs and falls through to
the next attempt without returning a result. -/
def classifySubmitResponse (slot : Slot) (r : SubmitResponse) : Option ReservationOutcome :=
  if strIncludes r.text "RESERVATION CONFIRMATION" then
    if confirmMatches slot r then
      some (.confirmed ((r.confirmDateRaw.map jsTrim).getD "Unknown")
        ((r.confirmTimeRaw.map jsTrim).getD "Unknown"))
    else none
  else if strIncludes r.text "There is not another available reservation at this timeslot" then
    some .slotUnavailable
  else if strIncludes r.text "did not fulfill the Weekday Booking restriction" then
    some .weekdayRestriction
  else if strIncludes r.text "Rule Conflict" then
    some .ruleConflict
  else if strIncludes r.text "error" || strIncludes r.text "failed" then
    some .errorInResponse
  else
    some .unclear

/-- The retry loop of `makeReservation`, `fuel` = remaining attempts
(`fuel = 0` inside the body means this is the last attempt). -/
def makeReservationGo (slot : Slot) (attempts : Nat → SubmitAttempt) :
    Nat → Nat → Option ReservationOutcome
  | 0, _ => none
  | fuel + 1, attempt =>
    match attempts attempt with
    | .netError msg =>
      if fuel == 0 then some (.networkFailed msg)
      else makeReservationGo slot attempts fuel (attempt + 1)
    | .ok r =>
      match classifySubmitResponse slot r with
      | some out => some out
      | none => makeReservationGo slot attempts fuel (attempt + 1)

/-- Embedding of `makeReservation(slot, guests, ..., maxRetries = 10)`
(lines 487-813).  `attempts n` is the peer's behaviour on attempt
`n`; `none` models the source function running its loop to the end
and returning `undefined`. -/
def makeReservation (slot : Slot) (attempts : Nat → SubmitAttempt)
    (maxRetries : Nat := 10) : Option ReservationOutcome :=
  makeReservationGo slot attempts maxRetries 1

/-! ## Weekend automation (src/weekendAutomation.js)

Dates are day indices with `d % 7` the JS `getDay` weekday (so
`DAYOFWEEK(date) IN (1, 7)` of the SQL becomes `d % 7 ∈ {0, 6}`).
The database is explicit state: `booking_preferences` rows,
`weekend_booking_history` rows (most recent first, as the
`ORDER BY created_at DESC` queries read them) and the settings row.
Credentials, authentication, the active guest count, the
time-dependent window check and the outcome of
`findAndBookBestSlot` per target date are an explicit environment.
The two in-memory in-progress guards (`isBookingInProgress`,
`catchUpInProgress`) are cleared in `finally` before any next call of
the same function, so a single sequential run, which is what the
theorems below are about, always sees them `false`; they are not
modelled. -/

/-- A `booking_preferences` row (the fields the automation reads). -/
structure PrefRow where
  date : Int
  status : String
  bookingType : String
deriving DecidableEq, Repr

/-- A `weekend_booking_history` row (the fields the automation
reads). -/
structure HistRow where
  date : Int
  status : String
deriving DecidableEq, Repr

/-- The persistent state visible to the weekend automation. -/
structure AutoState where
  prefs : List PrefRow
  history : List HistRow
  enabled : Bool
  lastSaturdayBooked : Option Int
  lastSundayBooked : Option Int
deriving DecidableEq, Repr

/-- Outcome of the `findAndBookBestSlot` call of
`executeWeekendBooking`, classified as the source's `errorMsg`
scan does (lines 292-304): success, a message containing
`No available slots`, a message containing `not open` or
`countdown`, or any other failure. -/
inductive FindBookOutcome
  | booked (time : String)
  | noSlots
  | notOpenYet
  | otherFailure
deriving DecidableEq, Repr

/-- Environment of one automation run. -/
structure AutoEnv where
  credentialsOk : Bool
  sessionCached : Bool
  authOk : Bool
  guestCount : Nat
  windowOpen : Int → Bool
  outcome : Int → FindBookOutcome

/-- `getBookedWeekendCount` (src/weekendAutomation.js lines 75-90):
future weekend rows with status `booked` or `pending`. -/
def getBookedWeekendCount (today : Int) (st : AutoState) : Nat :=
  (st.prefs.filter fun r =>
    today ≤ r.date && (r.date % 7 == 0 || r.date % 7 == 6) &&
      (r.status == "booked" || r.status == "pending")).length

/-- `hasFailedAttempt` (lines 93-109): some history row for the date
with status `no_slots` (the query filters on the status, so the
`LIMIT 1` only tests existence). -/
def hasFailedAttempt (st : AutoState) (d : Int) : Bool :=
  st.history.any fun h => h.date == d && h.status == "no_slots"

/-- `hasExistingBooking` (lines 112-129): some
`booking_preferences` row for the date. -/
def hasExistingBooking (st : AutoState) (d : Int) : Bool :=
  st.prefs.any fun r => r.date == d

/-- `logWeekendAttempt` (lines 162-185): prepend a history row
(insertion order is newest first in this embedding). -/
def logWeekendAttempt (st : AutoState) (d : Int) (status : String) : AutoState :=
  { st with history := { date := d, status := status } :: st.history }

/-- Result of one `executeWeekendBooking` call: the returned value
(`some` of the booked time on success, `none` for every `return
null`), the updated state, and whether the call reached its
`findAndBookBestSlot` booking attempt (instrumentation of the
embedding; the source observably logs and mutates exactly when it
does). -/
structure EWBResult where
  res : Option String
  st : AutoState
  attempted : Bool
deriving DecidableEq, Repr

/-- Embedding of `executeWeekendBooking(targetDate, mode)` (lines
188-314).  The checks in source order: existing booking, the
catch-up-only `hasFailedAttempt` skip, credentials, lazy
authentication (skipped when a session token is cached), the guest
minimum, then the booking attempt and its outcome handling. -/
def executeWeekendBooking (env : AutoEnv) (st : AutoState) (d : Int) (mode : String) :
    EWBResult :=
  if hasExistingBooking st d then
    { res := none, st := logWeekendAttempt st d "already_booked", attempted := false }
  else if mode == "catch-up" && hasFailedAttempt st d then
    { res := none, st := st, attempted := false }
  else if !env.credentialsOk then
    { res := none, st := logWeekendAttempt st d "failed", attempted := false }
  else if !env.sessionCached && !env.authOk then
    { res := none, st := logWeekendAttempt st d "failed", attempted := false }
  else if env.guestCount < 3 then
    { res := none, st := logWeekendAttempt st d "failed", attempted := false }
  else
    match env.outcome d with
    | .booked t =>
      let st1 := { st with
        prefs := st.prefs ++
          [({ date := d, status := "booked", bookingType := "weekend_auto" } : PrefRow)] }
      let st2 := if d % 7 == 6 then { st1 with lastSaturdayBooked := some d }
                 else { st1 with lastSundayBooked := some d }
      { res := some t, st := logWeekendAttempt st2 d "success", attempted := true }
    | .noSlots =>
      { res := none, st := logWeekendAttempt st d "no_slots", attempted := true }
    | .notOpenYet =>
      { res := none, st := logWeekendAttempt st d "failed", attempted := true }
    | .otherFailure =>
      { res := none, st := logWeekendAttempt st d "failed", attempted := true }

/-- One weekend entry of `getNext6Weekends` (lines 422-481): the
Saturday and Sunday day indices and their booked flags as read when
the list was built. -/
structure WeekendPair where
  sat : Int
  sun : Int
  satBooked : Bool
  sunBooked : Bool
deriving DecidableEq, Repr

/-- `(6 - now.getDay() + 7) % 7 || 7` (line 429). -/
def daysUntilSaturday (today : Int) : Int :=
  let k := (6 - today % 7 + 7) % 7
  if k == 0 then 7 else k

/-- Embedding of `getNext6Weekends` (lines 422-481); the booking rows
are read from the state the sweep starts with. -/
def getNext6Weekends (today : Int) (st : AutoState) : List WeekendPair :=
  (List.range 6).map fun (i : Nat) =>
    let sat := today + daysUntilSaturday today + 7 * (i : Int)
    { sat := sat
      sun := sat + 1
      satBooked := hasExistingBooking st sat
      sunBooked := hasExistingBooking st (sat + 1) }

/-- One day of the catch-up loop body (lines 353-362 and 367-376):
window open, not booked in the snapshot, no logged `no_slots`
attempt — then one `executeWeekendBooking` in catch-up mode,
incrementing `bookingsMade` on success. -/
def catchUpTryDay (env : AutoEnv) (d : Int) (isBooked : Bool) (bm : Nat) (st : AutoState) :
    Nat × AutoState :=
  if env.windowOpen d && !isBooked then
    if !(hasFailedAttempt st d) then
      let r := executeWeekendBooking env st d "catch-up"
      ((if r.res.isSome then bm + 1 else bm), r.st)
    else (bm, st)
  else (bm, st)

/-- The `for (const weekend of weekends)` loop of
`executeCatchUpBookings` (lines 346-377) with its two
`bookingsMade >= availableSlots` break checks. -/
def catchUpLoop (env : AutoEnv) (avail : Nat) :
    List WeekendPair → Nat → AutoState → Nat × AutoState
  | [], bm, st => (bm, st)
  | w :: ws, bm, st =>
    if avail ≤ bm then (bm, st)
    else
      let p1 := catchUpTryDay env w.sat w.satBooked bm st
      if avail ≤ p1.1 then p1
      else
        let p2 := catchUpTryDay env w.sun w.sunBooked p1.1 p1.2
        catchUpLoop env avail ws p2.1 p2.2

/-- `maxWeekendBookings` (line 11). -/
def maxWeekendBookings : Nat := 4

/-- Embedding of `executeCatchUpBookings` (lines 317-389): enabled
check, cap check against the current booked count, then the loop over
the next six weekends with allowance
`maxWeekendBookings - bookedCount`. -/
def executeCatchUpBookings (env : AutoEnv) (today : Int) (st : AutoState) : AutoState :=
  if !st.enabled then st
  else
    let bookedCount := getBookedWeekendCount today st
    if maxWeekendBookings ≤ bookedCount then st
    else
      (catchUpLoop env (maxWeekendBookings - bookedCount)
        (getNext6Weekends today st) 0 st).2

/-- Embedding of `executeRealTimeBooking` (lines 392-419): weekend
day check, enabled check, cap check, then one
`executeWeekendBooking` for the date seven days ahead in
`real-time` mode (whose result the source discards; the embedding
returns it so theorems can observe the attempt). -/
def executeRealTimeBooking (env : AutoEnv) (today : Int) (st : AutoState) : EWBResult :=
  if today % 7 != 6 && today % 7 != 0 then { res := none, st := st, attempted := false }
  else if !st.enabled then { res := none, st := st, attempted := false }
  else if maxWeekendBookings ≤ getBookedWeekendCount today st then
    { res := none, st := st, attempted := false }
  else executeWeekendBooking env st (today + 7) "real-time"

/-! ## The manual-request scheduler cron
(src/unnamed/part_002 lines 923-1020; the earlier revision
src/unnamed/part_001 lines 592-688 is identical except that it does
not filter on `booking_type`)

The minute tick selects the pending rows its SQL query admits and
processes each: when the window opens in (0, 30) seconds it defers
the attempt to the window-open instant, otherwise it attempts at
once.  Timestamps are seconds; `today` is the `CURDATE()` day
index and each row's `date` a day index. -/

/-- A `booking_preferences` row as the manual cron reads it. -/
structure ManualBooking where
  id : Nat
  status : String
  bookingType : String
  date : Int
  bookingOpensAt : Int
  lastAttempt : Option Int
deriving DecidableEq, Repr

/-- The `WHERE` clause of the part_002 cron query (lines 929-935):
pending, manual, date not passed, and — unconditionally — the
five-minute cooldown on `last_attempt`. -/
def manualCronEligible (now : Int) (today : Int) (b : ManualBooking) : Bool :=
  b.status == "pending" && b.bookingType == "manual" && today ≤ b.date &&
    (match b.lastAttempt with
     | none => true
     | some la => la < now - 5 * 60)

/-- How a selected booking is attempted on this tick (lines
950-1014). -/
inductive DispatchKind
  | deferredToWindowOpen
  | immediate
deriving DecidableEq, Repr

/-- `timeUntilOpen > 0 && timeUntilOpen < 30000` (line 954, in
milliseconds; seconds here). -/
def manualCronDispatch (now : Int) (b : ManualBooking) : DispatchKind :=
  let timeUntilOpen := b.bookingOpensAt - now
  if 0 < timeUntilOpen && timeUntilOpen < 30 then .deferredToWindowOpen else .immediate

/-- Embedding of one minute tick of the manual booking checker: the
bookings attempted on this tick (immediately or deferred within the
tick) with their dispatch kinds.  Nothing is attempted when no row is
selected or no credentials are configured. -/
def manualCronTick (now today : Int) (rows : List ManualBooking) (credentialsOk : Bool) :
    List (Nat × DispatchKind) :=
  let pending := rows.filter (manualCronEligible now today)
  if pending.isEmpty then []
  else if !credentialsOk then []
  else pending.map fun b => (b.id, manualCronDispatch now b)

/-! ## Concrete instances used by the witness and counterexample
theorems -/

/-- A requested slot: 7:30 AM on Saturday 9/6/2025. -/
def c1slot : Slot :=
  { time := "7:30 AM", tee := "1st TEE", availableSpots := 4, currentPlayers := some 0,
    courseId := "95", date := "9/6/2025", canReserve := true }

/-- A submission response carrying the confirmation marker whose
extracted time (8:10 AM) differs from the requested 7:30 AM. -/
def c1resp : SubmitResponse :=
  { text := "<div>RESERVATION CONFIRMATION</div>"
    confirmDateRaw := some "Saturday, September 6, 2025"
    confirmTimeRaw := some "8:10 AM" }

/-- A full-capacity in-range slot at 8:00 AM. -/
def w2slotA : Slot :=
  { time := "8:00 AM", tee := "1st TEE", availableSpots := 4, currentPlayers := some 0,
    courseId := "95", date := "9/6/2025", canReserve := true }

/-- A partial-capacity slot at 7:00 AM, outside the witness window. -/
def w2slotB : Slot :=
  { time := "7:00 AM", tee := "1st TEE", availableSpots := 2, currentPlayers := some 2,
    courseId := "95", date := "9/6/2025", canReserve := true }

/-- A full-capacity 8:10 AM slot, listed first. -/
def c7slotA : Slot :=
  { time := "8:10 AM", tee := "1st TEE", availableSpots := 4, currentPlayers := some 0,
    courseId := "95", date := "9/6/2025", canReserve := true }

/-- A full-capacity 7:50 AM slot, listed second. -/
def c7slotB : Slot :=
  { time := "7:50 AM", tee := "1st TEE", availableSpots := 4, currentPlayers := some 0,
    courseId := "95", date := "9/6/2025", canReserve := true }

/-- An unsorted slot list: the later tee time comes first. -/
def c7slots : List Slot := [c7slotA, c7slotB]

/-- The same two slots sorted by time-of-day. -/
def w7slots : List Slot := [c7slotB, c7slotA]

/-- Target date of the catalog-fetch scenario: Saturday, September 6,
2025. -/
def c8date : CalDate := { month := 9, day := 6, year := 2025 }

/-- The catalog page the peer serves for the zero-padded date string. -/
def c8good : String := "<div>Tee sheet for Saturday, September 6, 2025</div>"

/-- The catalog page the peer serves otherwise (a different date). -/
def c8bad : String := "<div>Tee sheet for Friday, September 5, 2025</div>"

/-- A peer that accepts only the zero-padded date encoding. -/
def c8server (s : String) : Except String String :=
  if s = "09/06/2025" then .ok c8good else .ok c8bad

/-- A pending manual request whose window opens 30 seconds from now
(`now` = 1000000) and whose last attempt was 120 seconds ago. -/
def c3booking : ManualBooking :=
  { id := 7, status := "pending", bookingType := "manual", date := 20000,
    bookingOpensAt := 1000030, lastAttempt := some 999880 }

/-- A requested slot for the undefined-return scenario. -/
def c10slot : Slot :=
  { time := "7:30 AM", tee := "1st TEE", availableSpots := 4, currentPlayers := some 0,
    courseId := "95", date := "9/6/2025", canReserve := true }

/-- A response whose confirmation marker carries a different date and
time than requested. -/
def c10resp : SubmitResponse :=
  { text := "RESERVATION CONFIRMATION"
    confirmDateRaw := some "Friday, May 5, 2200"
    confirmTimeRaw := some "9:00 AM" }

/-- An automation environment in which every attempt succeeds. -/
def env4 : AutoEnv :=
  { credentialsOk := true, sessionCached := true, authOk := true, guestCount := 3,
    windowOpen := fun _ => true, outcome := fun _ => .booked "7:50 AM" }

/-- An automation state with no bookings and no history. -/
def st4 : AutoState :=
  { prefs := [], history := [], enabled := true,
    lastSaturdayBooked := none, lastSundayBooked := none }

/-- An automation state whose only history row is a `no_slots` mark
for day 7. -/
def st6 : AutoState :=
  { prefs := [], history := [{ date := 7, status := "no_slots" }], enabled := true,
    lastSaturdayBooked := none, lastSundayBooked := none }

/-! ## Theorems -/

/-- `find?` returns the head of the filtered list. -/
theorem find?_eq_filter_head? {α : Type} (p : α → Bool) (l : List α) :
    l.find? p = (l.filter p).head? := by
  induction l with
  | nil => rfl
  | cons a t ih =>
    simp only [List.find?_cons, List.filter_cons]
    cases h : p a
    · show t.find? p = (t.filter p).head?
      exact ih
    · rfl

/-- Unfolding of the tier predicate into its four conjuncts. -/
theorem slotTierInRange_eq_true {k : Int} {pm mm : Nat} {s : Slot} :
    slotTierInRange k pm mm s = true ↔
      s.canReserve = true ∧ s.availableSpots = k ∧
        pm ≤ timeToMinutes s.time ∧ timeToMinutes s.time ≤ mm := by
  simp [slotTierInRange, Bool.and_eq_true, decide_eq_true_eq, and_assoc]

/-- The head of a non-empty filtered list is a member satisfying the
predicate. -/
theorem head_filter_prop {p : Slot → Bool} {l : List Slot} {s : Slot} {t : List Slot}
    (h : l.filter p = s :: t) : s ∈ l ∧ p s = true := by
  have hs : s ∈ l.filter p := by rw [h]; exact List.mem_cons_self _ _
  exact ⟨(List.mem_filter.mp hs).1, (List.mem_filter.mp hs).2⟩

/-- Case analysis of a successful selection: the chosen slot heads the
filtered list of some tier `k` and every higher tier filtered to
nothing. -/
theorem selectBestSlot_cases (slots : List Slot) (pm mm : Nat) (s : Slot)
    (hsel : selectBestSlot slots pm mm = some s) :
    ∃ k : Int, ∃ tk : List Slot, (1 ≤ k ∧ k ≤ 4) ∧
      slots.filter (slotTierInRange k pm mm) = s :: tk ∧
      ∀ j : Int, k < j → j ≤ 4 → slots.filter (slotTierInRange j pm mm) = [] := by
  unfold selectBestSlot at hsel
  split at hsel
  next s4 t4 heq4 =>
    injection hsel with h; subst h
    exact ⟨4, t4, by omega, heq4, fun j hj1 hj2 => absurd hj1 (by omega)⟩
  next heq4 =>
    split at hsel
    next s3 t3 heq3 =>
      injection hsel with h; subst h
      refine ⟨3, t3, by omega, heq3, fun j hj1 hj2 => ?_⟩
      have : j = 4 := by omega
      subst this; exact heq4
    next heq3 =>
      split at hsel
      next s2 t2 heq2 =>
        injection hsel with h; subst h
        refine ⟨2, t2, by omega, heq2, fun j hj1 hj2 => ?_⟩
        rcases (by omega : j = 3 ∨ j = 4) with h' | h' <;> subst h'
        · exact heq3
        · exact heq4
      next heq2 =>
        split at hsel
        next s1 t1 heq1 =>
          injection hsel with h; subst h
          refine ⟨1, t1, by omega, heq1, fun j hj1 hj2 => ?_⟩
          rcases (by omega : j = 2 ∨ j = 3 ∨ j = 4) with h' | h' | h' <;> subst h'
          · exact heq2
          · exact heq3
          · exact heq4
        next => cases hsel

/-- Claim C2: for every list of parsed slots and every window in
minutes, the selector never chooses a slot whose minute-of-day lies
outside `[preferredTimeMin, maxTimeMin]` inclusive, and whenever
some in-range full-capacity slot (4 remaining spots, reservable)
exists the chosen slot has full capacity. -/
theorem selectBestSlot_in_window_and_prefers_full (slots : List Slot) (pm mm : Nat) :
    (∀ s : Slot, selectBestSlot slots pm mm = some s →
        pm ≤ timeToMinutes s.time ∧ timeToMinutes s.time ≤ mm) ∧
    ((∃ s ∈ slots, s.canReserve = true ∧ s.availableSpots = 4 ∧
        pm ≤ timeToMinutes s.time ∧ timeToMinutes s.time ≤ mm) →
      ∃ s : Slot, selectBestSlot slots pm mm = some s ∧ s.availableSpots = 4) := by
  constructor
  · intro s hsel
    obtain ⟨k, tk, _, hk, _⟩ := selectBestSlot_cases slots pm mm s hsel
    obtain ⟨_, hp⟩ := head_filter_prop hk
    exact ⟨(slotTierInRange_eq_true.mp hp).2.2.1, (slotTierInRange_eq_true.mp hp).2.2.2⟩
  · rintro ⟨s0, hmem, hcr, h4s, hlo, hhi⟩
    have hmemf : s0 ∈ slots.filter (slotTierInRange 4 pm mm) :=
      List.mem_filter.mpr ⟨hmem, slotTierInRange_eq_true.mpr ⟨hcr, h4s, hlo, hhi⟩⟩
    rcases hsel : selectBestSlot slots pm mm with _ | s
    · exfalso
      unfold selectBestSlot at hsel
      split at hsel
      next => cases hsel
      next heq4 => rw [heq4] at hmemf; exact absurd hmemf (List.not_mem_nil _)
    · refine ⟨s, rfl, ?_⟩
      obtain ⟨k, tk, hk14, hk, hemp⟩ := selectBestSlot_cases slots pm mm s hsel
      obtain ⟨_, hp⟩ := head_filter_prop hk
      have hsk : s.availableSpots = k := (slotTierInRange_eq_true.mp hp).2.1
      by_cases hk4 : k = 4
      · rw [hsk, hk4]
      · have : slots.filter (slotTierInRange 4 pm mm) = [] :=
          hemp 4 (by omega) (by omega)
        rw [this] at hmemf; exact absurd hmemf (List.not_mem_nil _)

/-- Witness for C2 at a concrete slot list and window. -/
theorem selectBestSlot_in_window_and_prefers_full_witness :
    (450 ≤ timeToMinutes w2slotA.time ∧ timeToMinutes w2slotA.time ≤ 540) ∧
    ∃ s : Slot, selectBestSlot [w2slotB, w2slotA] 450 540 = some s ∧ s.availableSpots = 4 :=
  ⟨(selectBestSlot_in_window_and_prefers_full [w2slotB, w2slotA] 450 540).1 w2slotA
      (by decide),
   (selectBestSlot_in_window_and_prefers_full [w2slotB, w2slotA] 450 540).2
      ⟨w2slotA, by decide, by decide, by decide, by decide, by decide⟩⟩

/-- Claim C5: the fast variant of the selector chooses exactly the
slot the normal variant chooses, and finds no slot exactly when the
normal variant finds none. -/
theorem selectBestSlotFast_eq_selectBestSlot (slots : List Slot) (pm mm : Nat) :
    selectBestSlotFast slots pm mm = selectBestSlot slots pm mm ∧
    (selectBestSlotFast slots pm mm = none ↔ selectBestSlot slots pm mm = none) := by
  have h : selectBestSlotFast slots pm mm = selectBestSlot slots pm mm := by
    unfold selectBestSlotFast selectBestSlot
    simp only [find?_eq_filter_head?]
    rcases h4 : slots.filter (slotTierInRange 4 pm mm) with _ | ⟨s4, t4⟩ <;>
      rcases h3 : slots.filter (slotTierInRange 3 pm mm) with _ | ⟨s3, t3⟩ <;>
        rcases h2 : slots.filter (slotTierInRange 2 pm mm) with _ | ⟨s2, t2⟩ <;>
          rcases h1 : slots.filter (slotTierInRange 1 pm mm) with _ | ⟨s1, t1⟩ <;>
            rfl
  exact ⟨h, by rw [h]⟩

/-- Counterexample to claim C7 as stated: with the later tee time
listed first, the selector returns the 8:10 AM slot although the
7:50 AM slot is reservable, in range and of the same (full-capacity)
tier — the chosen slot's minute-of-day is not minimal within the
tier. -/
theorem selectBestSlot_not_earliest_counterexample :
    selectBestSlot c7slots 470 540 = some c7slotA ∧
    c7slotB ∈ c7slots ∧ c7slotB.canReserve = true ∧
    c7slotB.availableSpots = c7slotA.availableSpots ∧
    470 ≤ timeToMinutes c7slotB.time ∧ timeToMinutes c7slotB.time ≤ 540 ∧
    ¬(timeToMinutes c7slotA.time ≤ timeToMinutes c7slotB.time) := by
  decide

/-- Claim C7 (amended): within the first non-empty capacity tier the
selector returns the first in-range slot in list order; its tier is
maximal among the in-range reservable slots with 1-4 remaining
spots, and when the slot list is sorted ascending by minute-of-day
(as a tee sheet lists its times) the chosen slot's minute-of-day is
minimal within its tier. -/
theorem selectBestSlot_first_listed_within_tier (slots : List Slot) (pm mm : Nat) (s : Slot)
    (hsel : selectBestSlot slots pm mm = some s) :
    (∀ t ∈ slots, t.canReserve = true → pm ≤ timeToMinutes t.time →
        timeToMinutes t.time ≤ mm → 1 ≤ t.availableSpots → t.availableSpots ≤ 4 →
        t.availableSpots ≤ s.availableSpots) ∧
    (slots.Pairwise (fun a b => timeToMinutes a.time ≤ timeToMinutes b.time) →
      ∀ t ∈ slots, t.canReserve = true → t.availableSpots = s.availableSpots →
        pm ≤ timeToMinutes t.time → timeToMinutes t.time ≤ mm →
        timeToMinutes s.time ≤ timeToMinutes t.time) := by
  obtain ⟨k, tk, hk14, hk, hemp⟩ := selectBestSlot_cases slots pm mm s hsel
  obtain ⟨hsmem, hsp⟩ := head_filter_prop hk
  have hsspots : s.availableSpots = k := (slotTierInRange_eq_true.mp hsp).2.1
  constructor
  · intro t ht hcr hlo hhi h1 h4
    by_contra hgt
    have hkt : k < t.availableSpots := by omega
    have hempty : slots.filter (slotTierInRange t.availableSpots pm mm) = [] :=
      hemp t.availableSpots (by omega) h4
    have : t ∈ slots.filter (slotTierInRange t.availableSpots pm mm) :=
      List.mem_filter.mpr ⟨ht, slotTierInRange_eq_true.mpr ⟨hcr, rfl, hlo, hhi⟩⟩
    rw [hempty] at this
    exact absurd this (List.not_mem_nil _)
  · intro hsort t ht hcr hspots hlo hhi
    have htf : t ∈ slots.filter (slotTierInRange k pm mm) :=
      List.mem_filter.mpr ⟨ht, slotTierInRange_eq_true.mpr ⟨hcr, by omega, hlo, hhi⟩⟩
    have hfsort : (slots.filter (slotTierInRange k pm mm)).Pairwise
        (fun a b => timeToMinutes a.time ≤ timeToMinutes b.time) :=
      hsort.sublist (List.filter_sublist _)
    rw [hk] at htf hfsort
    rcases List.mem_cons.mp htf with h' | h'
    · rw [h']
    · exact List.rel_of_pairwise_cons hfsort h'

/-- Witness for the amended C7 at a sorted concrete slot list. -/
theorem selectBestSlot_first_listed_within_tier_witness :
    c7slotA.availableSpots ≤ c7slotB.availableSpots ∧
    timeToMinutes c7slotB.time ≤ timeToMinutes c7slotA.time :=
  ⟨(selectBestSlot_first_listed_within_tier w7slots 470 540 c7slotB (by decide)).1
      c7slotA (by decide) (by decide) (by decide) (by decide) (by decide) (by decide),
   (selectBestSlot_first_listed_within_tier w7slots 470 540 c7slotB (by decide)).2
      (by decide) c7slotA (by decide) (by decide) (by decide) (by decide) (by decide)⟩

/-- The guarded push preserves pairwise distinctness of the
`(time, date)` key. -/
theorem pushMatches_pairwise (ms : List RawMatch) (acc : List Slot)
    (h : acc.Pairwise fun a b => ¬(a.time = b.time ∧ a.date = b.date)) :
    (pushMatches ms acc).Pairwise fun a b => ¬(a.time = b.time ∧ a.date = b.date) := by
  induction ms generalizing acc with
  | nil => simpa [pushMatches] using h
  | cons m rest ih =>
    simp only [pushMatches]
    apply ih
    split
    next hcond =>
      rw [Bool.and_eq_true] at hcond
      have hdup := hcond.2
      rw [Bool.not_eq_true'] at hdup
      refine List.pairwise_append.mpr ⟨h, List.pairwise_singleton _ _, ?_⟩
      intro a ha b hb
      rw [List.mem_singleton] at hb
      subst hb
      intro ⟨ht, hd⟩
      have : acc.any (fun s => s.time == m.time && s.date == m.date) = true :=
        List.any_eq_true.mpr ⟨a, ha, by simp [ht, hd]⟩
      rw [hdup] at this
      cases this
    next => exact h

/-- Every slot the guarded push adds has positive remaining
capacity. -/
theorem pushMatches_pos (ms : List RawMatch) (acc : List Slot)
    (h : ∀ s ∈ acc, 0 < s.availableSpots) :
    ∀ s ∈ pushMatches ms acc, 0 < s.availableSpots := by
  induction ms generalizing acc with
  | nil => simpa [pushMatches] using h
  | cons m rest ih =>
    simp only [pushMatches]
    apply ih
    split
    next hcond =>
      rw [Bool.and_eq_true] at hcond
      have hspots := hcond.1
      intro s hs
      rcases List.mem_append.mp hs with h' | h'
      · exact h s h'
      · rw [List.mem_singleton] at h'
        subst h'
        rcases hj : jsParseInt m.availableSpots with _ | v
        · rw [hj] at hspots; cases hspots
        · rw [hj] at hspots
          simp only [decide_eq_true_eq] at hspots
          simpa [hj] using hspots
    next => exact h

/-- The parser output is some guarded push from the empty
accumulator. -/
theorem parseAvailableSlots_eq_pushMatches (html : String) :
    ∃ ms, parseAvailableSlots html = pushMatches ms [] := by
  simp only [parseAvailableSlots]
  split
  · exact ⟨_, rfl⟩
  · exact ⟨_, rfl⟩

/-- Claim C9: the catalog parser is a pure deterministic function —
parsing the same payload twice yields the same list — and every
output list has no two records sharing a `(time, date)` pair and no
record with zero remaining capacity. -/
theorem parseAvailableSlots_deterministic_dedup_nonzero (html : String) :
    parseAvailableSlots html = parseAvailableSlots html ∧
    (parseAvailableSlots html).Pairwise
      (fun a b => ¬(a.time = b.time ∧ a.date = b.date)) ∧
    ∀ s ∈ parseAvailableSlots html, s.availableSpots ≠ 0 := by
  obtain ⟨ms, hms⟩ := parseAvailableSlots_eq_pushMatches html
  refine ⟨rfl, ?_, ?_⟩
  · rw [hms]
    exact pushMatches_pairwise ms [] List.Pairwise.nil
  · rw [hms]
    intro s hs
    have := pushMatches_pos ms [] (by intro s hs; cases hs) s hs
    omega

/-- A response carrying the confirmation marker whose extracted
date/time do not both match is classified as neither success nor
failure: the attempt falls through to a retry. -/
theorem classify_mismatched_confirmation_none (slot : Slot) (r : SubmitResponse)
    (h1 : strIncludes r.text "RESERVATION CONFIRMATION" = true)
    (h2 : confirmMatches slot r = false) :
    classifySubmitResponse slot r = none := by
  simp [classifySubmitResponse, h1, h2]

/-- Counterexample to claim C1 as stated: a submission response with
the confirmation marker and a mismatching extracted time is not
reported as a failure — `makeReservation` classifies it as no
outcome at all and moves on to the next attempt. -/
theorem submitter_mismatch_no_failure_counterexample :
    strIncludes c1resp.text "RESERVATION CONFIRMATION" = true ∧
    confirmMatches c1slot c1resp = false ∧
    classifySubmitResponse c1slot c1resp = none := by
  decide

/-- Claim C1 (amended): for every submission response carrying the
confirmation marker whose extracted date and time do not both match
the requested slot (in the source's tolerant comparison), the
submitter never reports success; but instead of reporting failure it
reports nothing for that submission and retries. -/
theorem submitter_mismatched_confirmation_never_success (slot : Slot) (r : SubmitResponse)
    (h1 : strIncludes r.text "RESERVATION CONFIRMATION" = true)
    (h2 : confirmMatches slot r = false) :
    classifySubmitResponse slot r = none ∧
    ∀ out : ReservationOutcome,
      classifySubmitResponse slot r = some out → out.isSuccess = false := by
  have h := classify_mismatched_confirmation_none slot r h1 h2
  exact ⟨h, fun out hout => by rw [h] at hout; cases hout⟩

/-- Witness for the amended C1 at a concrete slot and response. -/
theorem submitter_mismatched_confirmation_never_success_witness :
    classifySubmitResponse c1slot c1resp = none :=
  (submitter_mismatched_confirmation_never_success c1slot c1resp
    (by decide) (by decide)).1

/-- The retry loop returns nothing when every remaining attempt is a
mismatched confirmation. -/
theorem makeReservationGo_all_mismatched_none (slot : Slot)
    (attempts : Nat → SubmitAttempt) :
    ∀ fuel attempt : Nat,
      (∀ a, attempt ≤ a → a < attempt + fuel → ∃ r,
        attempts a = .ok r ∧ strIncludes r.text "RESERVATION CONFIRMATION" = true ∧
        confirmMatches slot r = false) →
      makeReservationGo slot attempts fuel attempt = none := by
  intro fuel
  induction fuel with
  | zero => intro attempt _; rfl
  | succ n ih =>
    intro attempt h
    obtain ⟨r, hr, h1, h2⟩ := h attempt (Nat.le_refl _) (by omega)
    have hc := classify_mismatched_confirmation_none slot r h1 h2
    simp only [makeReservationGo, hr, hc]
    exact ih (attempt + 1) (fun a ha1 ha2 => h a (by omega) (by omega))

/-- Claim C10: when every one of the 10 attempts yields a response
carrying the confirmation marker with extracted date/time that do
not both match the requested slot, `makeReservation` exhausts its
attempts and returns no result object at all (the JS function falls
off the loop and returns `undefined`), so the caller receives
neither a success nor a classified failure. -/
theorem makeReservation_all_mismatched_returns_nothing (slot : Slot)
    (attempts : Nat → SubmitAttempt)
    (h : ∀ a, 1 ≤ a → a ≤ 10 → ∃ r,
      attempts a = .ok r ∧ strIncludes r.text "RESERVATION CONFIRMATION" = true ∧
      confirmMatches slot r = false) :
    makeReservation slot attempts = none :=
  makeReservationGo_all_mismatched_none slot attempts 10 1
    (fun a ha1 ha2 => h a ha1 (by omega))

/-- Witness for C10 at a concrete slot and attempt sequence. -/
theorem makeReservation_all_mismatched_returns_nothing_witness :
    makeReservation c10slot (fun _ => .ok c10resp) = none :=
  makeReservation_all_mismatched_returns_nothing c10slot (fun _ => .ok c10resp)
    (fun a _ _ => ⟨c10resp, rfl, by decide, by decide⟩)

/-- One retry step of the fetch loop: a date-validation mismatch on a
non-final attempt moves to the next attempt. -/
theorem getTeeSheetGo_retry (d : CalDate) (server : String → Except String String)
    (n attempt : Nat) (body : String)
    (hb : server (attemptDateString d attempt) = .ok body)
    (hm : strIncludes body (expectedLongDate (attemptDateString d attempt)) = false) :
    getTeeSheetGo d server (n + 2) attempt = getTeeSheetGo d server (n + 1) (attempt + 1) := by
  show getTeeSheetGo d server ((n + 1) + 1) attempt = _
  simp only [getTeeSheetGo, hb, hm]
  simp

/-- The success step of the fetch loop: a validated, non-login
response returns the parsed sheet at the current attempt. -/
theorem getTeeSheetGo_success (d : CalDate) (server : String → Except String String)
    (fuel attempt : Nat) (body : String)
    (hb : server (attemptDateString d attempt) = .ok body)
    (hm : strIncludes body (expectedLongDate (attemptDateString d attempt)) = true)
    (hl1 : strIncludes body "txtUsername" = false)
    (hl2 : strIncludes body "Login" = false) :
    getTeeSheetGo d server (fuel + 1) attempt = some (attempt, parseTeeSheet body) := by
  simp only [getTeeSheetGo, hb, hm, hl1, hl2]
  simp

/-- Claim C8: attempts 1-5 of the catalog fetch send the non-padded
date string and attempts 6-10 the zero-padded one; when the peer's
response validates only for the padded encoding (and carries no
login markers), the fetch succeeds on attempt 6 with the
date-validation check passing. -/
theorem getTeeSheet_padded_succeeds_attempt6 (d : CalDate)
    (server : String → Except String String) (rNP rP : String)
    (hNP : server (formattedDate d) = .ok rNP)
    (hP : server (paddedDate d) = .ok rP)
    (hmiss : strIncludes rNP (expectedLongDate (formattedDate d)) = false)
    (hhit : strIncludes rP (expectedLongDate (paddedDate d)) = true)
    (hl1 : strIncludes rP "txtUsername" = false)
    (hl2 : strIncludes rP "Login" = false) :
    (∀ a, 1 ≤ a → a ≤ 5 → attemptDateString d a = formattedDate d) ∧
    (∀ a, 6 ≤ a → a ≤ 10 → attemptDateString d a = paddedDate d) ∧
    getTeeSheet d server = some (6, parseTeeSheet rP) := by
  have hlo : ∀ a, 1 ≤ a → a ≤ 5 → attemptDateString d a = formattedDate d := by
    intro a _ h2
    simp [attemptDateString, h2]
  have hhi : ∀ a, 6 ≤ a → a ≤ 10 → attemptDateString d a = paddedDate d := by
    intro a h1 _
    have : ¬ a ≤ 5 := by omega
    simp [attemptDateString, this]
  refine ⟨hlo, hhi, ?_⟩
  have step : ∀ n a, 1 ≤ a → a ≤ 5 →
      getTeeSheetGo d server (n + 2) a = getTeeSheetGo d server (n + 1) (a + 1) := by
    intro n a h1 h2
    exact getTeeSheetGo_retry d server n a rNP
      (by rw [hlo a h1 h2]; exact hNP) (by rw [hlo a h1 h2]; exact hmiss)
  have r1 : getTeeSheetGo d server 10 1 = getTeeSheetGo d server 9 2 :=
    step 8 1 (by omega) (by omega)
  have r2 : getTeeSheetGo d server 9 2 = getTeeSheetGo d server 8 3 :=
    step 7 2 (by omega) (by omega)
  have r3 : getTeeSheetGo d server 8 3 = getTeeSheetGo d server 7 4 :=
    step 6 3 (by omega) (by omega)
  have r4 : getTeeSheetGo d server 7 4 = getTeeSheetGo d server 6 5 :=
    step 5 4 (by omega) (by omega)
  have r5 : getTeeSheetGo d server 6 5 = getTeeSheetGo d server 5 6 :=
    step 4 5 (by omega) (by omega)
  have r6 : getTeeSheetGo d server 5 6 = some (6, parseTeeSheet rP) :=
    getTeeSheetGo_success d server 4 6 rP
      (by rw [hhi 6 (by omega) (by omega)]; exact hP)
      (by rw [hhi 6 (by omega) (by omega)]; exact hhit) hl1 hl2
  show getTeeSheetGo d server 10 1 = some (6, parseTeeSheet rP)
  rw [r1, r2, r3, r4, r5, r6]

/-- Witness for C8 at a concrete date and peer. -/
theorem getTeeSheet_padded_succeeds_attempt6_witness :
    getTeeSheet c8date c8server = some (6, parseTeeSheet c8good) :=
  (getTeeSheet_padded_succeeds_attempt6 c8date c8server c8bad c8good
    rfl rfl (by decide) (by decide) (by decide) (by decide)).2.2

/-- Claim C3 (code defect): a pending manual request whose window
opens 30 seconds from now — i.e. within the next 60 seconds — and
whose last attempt was 120 seconds ago is not selected by the minute
cron's eligibility query: the five-minute cooldown applies
unconditionally, so no attempt is made on this tick.  The
repository's own README documents a high-priority clause
(window-open within the next minute ignores the cooldown) that the
shipped query does not contain. -/
theorem manualCron_no_sixty_second_bypass :
    c3booking.status = "pending" ∧ c3booking.bookingType = "manual" ∧
    (0 < c3booking.bookingOpensAt - 1000000 ∧ c3booking.bookingOpensAt - 1000000 ≤ 60) ∧
    (∃ la, c3booking.lastAttempt = some la ∧ 1000000 - 5 * 60 < la) ∧
    manualCronEligible 1000000 20000 c3booking = false ∧
    manualCronTick 1000000 20000 [c3booking] true = [] := by
  refine ⟨rfl, rfl, by decide, ⟨999880, rfl, by decide⟩, by decide, by decide⟩

/-- Logging a history row leaves the booked-weekend count unchanged
(the count reads only `booking_preferences`). -/
theorem getBookedWeekendCount_log (today : Int) (st : AutoState) (d : Int) (s : String) :
    getBookedWeekendCount today (logWeekendAttempt st d s) =
      getBookedWeekendCount today st := rfl

/-- Appending the `booked` row a successful weekend booking inserts
raises the booked-weekend count by one when the date is a future
weekend day. -/
theorem getBookedWeekendCount_append_booked (today d : Int) (st : AutoState)
    (hd : today ≤ d) (hw : d % 7 = 0 ∨ d % 7 = 6) :
    getBookedWeekendCount today
      { st with prefs := st.prefs ++
          [({ date := d, status := "booked", bookingType := "weekend_auto" } : PrefRow)] } =
      getBookedWeekendCount today st + 1 := by
  unfold getBookedWeekendCount
  simp only [List.filter_append, List.length_append]
  congr 1
  rcases hw with hw | hw <;> simp [List.filter, hd, hw]

/-- Effect of one `executeWeekendBooking` call on the booked-weekend
count: plus one exactly when it returns a success, unchanged
otherwise (for a future weekend target date). -/
theorem executeWeekendBooking_count (env : AutoEnv) (st : AutoState) (today d : Int)
    (mode : String) (hd : today ≤ d) (hw : d % 7 = 0 ∨ d % 7 = 6) :
    getBookedWeekendCount today (executeWeekendBooking env st d mode).st =
      getBookedWeekendCount today st +
        (if (executeWeekendBooking env st d mode).res.isSome then 1 else 0) := by
  unfold executeWeekendBooking
  split
  · simp [getBookedWeekendCount_log]
  · split
    · simp
    · split
      · simp [getBookedWeekendCount_log]
      · split
        · simp [getBookedWeekendCount_log]
        · split
          · simp [getBookedWeekendCount_log]
          · split
            · -- success: one `booked` row appended
              rename_i t _
              show getBookedWeekendCount today (logWeekendAttempt _ d "success") = _
              rw [getBookedWeekendCount_log]
              split
              · simpa using getBookedWeekendCount_append_booked today d st hd hw
              · simpa using getBookedWeekendCount_append_booked today d st hd hw
            · simp [getBookedWeekendCount_log]
            · simp [getBookedWeekendCount_log]
            · simp [getBookedWeekendCount_log]

/-- Effect of one catch-up day on `bookingsMade` and the
booked-weekend count. -/
theorem catchUpTryDay_count (env : AutoEnv) (today d : Int) (isBooked : Bool) (bm : Nat)
    (st : AutoState) (hd : today ≤ d) (hw : d % 7 = 0 ∨ d % 7 = 6) :
    bm ≤ (catchUpTryDay env d isBooked bm st).1 ∧
    (catchUpTryDay env d isBooked bm st).1 ≤ bm + 1 ∧
    getBookedWeekendCount today (catchUpTryDay env d isBooked bm st).2 + bm =
      getBookedWeekendCount today st + (catchUpTryDay env d isBooked bm st).1 := by
  simp only [catchUpTryDay]
  split
  · split
    · have hc := executeWeekendBooking_count env st today d "catch-up" hd hw
      rcases hres : (executeWeekendBooking env st d "catch-up").res with _ | t <;>
        (rw [hres] at hc; simp [hres, hc]; try omega)
    · simp
  · simp

/-- Invariant of the catch-up loop: `bookingsMade` never exceeds the
allowance and the booked-weekend count grows by exactly the number of
successful bookings. -/
theorem catchUpLoop_inv (env : AutoEnv) (today : Int) (avail : Nat) :
    ∀ (ws : List WeekendPair) (bm : Nat) (st : AutoState),
      (∀ w ∈ ws, today ≤ w.sat ∧ w.sat % 7 = 6 ∧ w.sun = w.sat + 1) →
      bm ≤ avail →
      bm ≤ (catchUpLoop env avail ws bm st).1 ∧
      (catchUpLoop env avail ws bm st).1 ≤ avail ∧
      getBookedWeekendCount today (catchUpLoop env avail ws bm st).2 + bm =
        getBookedWeekendCount today st + (catchUpLoop env avail ws bm st).1 := by
  intro ws
  induction ws with
  | nil =>
    intro bm st _ hbm
    exact ⟨Nat.le_refl _, hbm, rfl⟩
  | cons w ws ih =>
    intro bm st hws hbm
    obtain ⟨hsat, hdow, hsun⟩ := hws w (List.mem_cons_self _ _)
    have hws' : ∀ w' ∈ ws, today ≤ w'.sat ∧ w'.sat % 7 = 6 ∧ w'.sun = w'.sat + 1 :=
      fun w' hw' => hws w' (List.mem_cons_of_mem _ hw')
    have hsun_le : today ≤ w.sun := by omega
    have hsun_dow : w.sun % 7 = 0 ∨ w.sun % 7 = 6 := by omega
    have h1 := catchUpTryDay_count env today w.sat w.satBooked bm st hsat (Or.inr hdow)
    simp only [catchUpLoop]
    split
    next hstop0 => exact ⟨Nat.le_refl _, hbm, rfl⟩
    next hgo0 =>
      split
      next hstop1 => exact ⟨h1.1, by omega, h1.2.2⟩
      next hgo1 =>
        have h2 := catchUpTryDay_count env today w.sun w.sunBooked
          (catchUpTryDay env w.sat w.satBooked bm st).1
          (catchUpTryDay env w.sat w.satBooked bm st).2 hsun_le hsun_dow
        have h3 := ih
          (catchUpTryDay env w.sun w.sunBooked
            (catchUpTryDay env w.sat w.satBooked bm st).1
            (catchUpTryDay env w.sat w.satBooked bm st).2).1
          (catchUpTryDay env w.sun w.sunBooked
            (catchUpTryDay env w.sat w.satBooked bm st).1
            (catchUpTryDay env w.sat w.satBooked bm st).2).2 hws' (by omega)
        exact ⟨by omega, by omega, by omega⟩

/-- The weekends of `getNext6Weekends` all lie in the future, with
`sat` a Saturday and `sun` the following Sunday. -/
theorem getNext6Weekends_spec (today : Int) (st : AutoState) :
    ∀ w ∈ getNext6Weekends today st,
      today ≤ w.sat ∧ w.sat % 7 = 6 ∧ w.sun = w.sat + 1 := by
  intro w hw
  obtain ⟨i, hi, rfl⟩ := List.mem_map.mp hw
  have hdus : 1 ≤ daysUntilSaturday today ∧ (today + daysUntilSaturday today) % 7 = 6 := by
    simp only [daysUntilSaturday]
    split
    next h =>
      rw [beq_iff_eq] at h
      omega
    next h =>
      rw [beq_iff_eq] at h
      omega
  refine ⟨?_, ?_, rfl⟩
  · show today ≤ today + daysUntilSaturday today + 7 * (i : Int)
    omega
  · show (today + daysUntilSaturday today + 7 * (i : Int)) % 7 = 6
    rw [Int.add_mul_emod_self_left]
    exact hdus.2

/-- Claim C4: the outstanding-occurrence cap is 4, and a catch-up
sweep never raises the count of future weekend occurrences in
`pending` or `booked` state above that cap: the sweep reads the
current count, computes the remaining allowance, and stops booking
once it is used up, so whenever the count is within the cap before a
sweep it still is afterwards (and a sweep never raises the count
above `max count cap` in any case). -/
theorem executeCatchUpBookings_cap (env : AutoEnv) (today : Int) (st : AutoState) :
    maxWeekendBookings = 4 ∧
    getBookedWeekendCount today (executeCatchUpBookings env today st) ≤
      max (getBookedWeekendCount today st) 4 ∧
    (getBookedWeekendCount today st ≤ 4 →
      getBookedWeekendCount today (executeCatchUpBookings env today st) ≤ 4) := by
  have core : getBookedWeekendCount today (executeCatchUpBookings env today st) ≤
      max (getBookedWeekendCount today st) 4 := by
    simp only [executeCatchUpBookings]
    split
    · exact Nat.le_max_left _ _
    · split
      · exact Nat.le_max_left _ _
      · next hcap =>
        have h := catchUpLoop_inv env today
          (maxWeekendBookings - getBookedWeekendCount today st)
          (getNext6Weekends today st) 0 st (getNext6Weekends_spec today st)
          (Nat.zero_le _)
        have hlt : getBookedWeekendCount today st < maxWeekendBookings := by omega
        have hmax : maxWeekendBookings = 4 := rfl
        omega
  refine ⟨rfl, core, fun hpre => ?_⟩
  calc getBookedWeekendCount today (executeCatchUpBookings env today st) ≤
      max (getBookedWeekendCount today st) 4 := core
    _ ≤ 4 := by omega

/-- Witness for C4 at a concrete state and environment. -/
theorem executeCatchUpBookings_cap_witness :
    getBookedWeekendCount 0 (executeCatchUpBookings env4 0 st4) ≤ 4 :=
  (executeCatchUpBookings_cap env4 0 st4).2.2 (by decide)

/-- A `no_slots` row in history makes `hasFailedAttempt` true. -/
theorem hasFailedAttempt_of_latest (st : AutoState) (d : Int)
    (h : (st.history.find? (fun e => e.date == d)).map HistRow.status = some "no_slots") :
    hasFailedAttempt st d = true := by
  rcases hfind : st.history.find? (fun e => e.date == d) with _ | e
  · rw [hfind] at h; cases h
  · rw [hfind] at h
    have hst : e.status = "no_slots" := by
      simpa using h
    have hmem := List.mem_of_find?_eq_some hfind
    have hdate := List.find?_some hfind
    exact List.any_eq_true.mpr ⟨e, hmem, by simp_all⟩

/-- Claim C6: an occurrence whose latest history entry is `no_slots`
is skipped by the catch-up path of `executeWeekendBooking` — no
booking attempt, no state change, `null` returned — while
`executeRealTimeBooking`, which never consults that history, still
reaches a fresh booking attempt for the occurrence at window-open. -/
theorem noSlots_skips_catchup_but_not_realtime (env : AutoEnv) (st : AutoState) (today : Int)
    (hhist : (st.history.find? (fun e => e.date == today + 7)).map HistRow.status =
      some "no_slots")
    (hnb : hasExistingBooking st (today + 7) = false)
    (hday : today % 7 = 6 ∨ today % 7 = 0)
    (hen : st.enabled = true)
    (hcap : getBookedWeekendCount today st < maxWeekendBookings)
    (hcred : env.credentialsOk = true)
    (hauth : env.sessionCached = true ∨ env.authOk = true)
    (hguests : 3 ≤ env.guestCount) :
    executeWeekendBooking env st (today + 7) "catch-up" =
      { res := none, st := st, attempted := false } ∧
    (executeRealTimeBooking env today st).attempted = true := by
  have hfail := hasFailedAttempt_of_latest st (today + 7) hhist
  have hmodeRT : (("real-time" : String) == "catch-up") = false := by decide
  have hmodeCU : (("catch-up" : String) == "catch-up") = true := by decide
  have hauth' : (!env.sessionCached && !env.authOk) = false := by
    rcases hauth with h | h <;> simp [h]
  have hguests' : ¬ env.guestCount < 3 := by omega
  have hskip : executeWeekendBooking env st (today + 7) "catch-up" =
      { res := none, st := st, attempted := false } := by
    unfold executeWeekendBooking
    rw [hnb, hfail, hmodeCU]
    simp
  refine ⟨hskip, ?_⟩
  have hattempt : (executeWeekendBooking env st (today + 7) "real-time").attempted = true := by
    unfold executeWeekendBooking
    rw [hnb, hmodeRT, hcred, hauth']
    simp only [Bool.false_eq_true, if_false, Bool.false_and, Bool.not_true, if_neg hguests']
    cases env.outcome (today + 7) <;> rfl
  unfold executeRealTimeBooking
  have hday' : (today % 7 != 6 && today % 7 != 0) = false := by
    rcases hday with h | h <;> simp [h]
  have hcap' : ¬ maxWeekendBookings ≤ getBookedWeekendCount today st := by omega
  rw [hday', hen]
  simp only [Bool.false_eq_true, if_false, Bool.not_true, if_neg hcap']
  exact hattempt

/-- Witness for C6 at a concrete state: day 7 is marked `no_slots`,
today is day 0 (a Sunday). -/
theorem noSlots_skips_catchup_but_not_realtime_witness :
    executeWeekendBooking env4 st6 7 "catch-up" =
      { res := none, st := st6, attempted := false } ∧
    (executeRealTimeBooking env4 0 st6).attempted = true :=
  noSlots_skips_catchup_but_not_realtime env4 st6 0 (by decide) (by decide)
    (Or.inr (by decide)) (by decide) (by decide) (by decide) (Or.inl (by decide))
    (by decide)

end TeeParty
